import Mathlib

/-! Scene descriptors of the OpenCL path tracer.

A shallow embedding of `Sphere.h` and `TextureInfo.h`.

* Machine words (`cl_uint`, the bit pattern of a `cl_float`) are natural numbers
  below `2 ^ 32`.  The function-local `static unsigned int id` of
  `Sphere::console_add` is a natural number that is incremented modulo `2 ^ 32`.
* Objects live in memory; memory is a map from object addresses to records and
  a constructor is a state transformer that writes the members of the object
  at address `this`.
* `GLConsole::cvars` is outside the sources.  It is represented by the
  sequence of `attach_cvar` calls it has received, each a key and a pointer
  to a member of a `Sphere` object.
* Every executed statement appends one event to `World.trace`, so that the
  order of effects can be stated.
-/

set_option linter.dupNamespace false

namespace PathTracer

/-! ## Scalar and vector types -/

/-- The type `cl_uint`: an unsigned 32-bit integer. -/
abbrev cl_uint := Fin 4294967296

/-- The type `cl_float`: a 32-bit IEEE-754 number, carried as its bit pattern.  The two
headers only copy such values, they never compute with them. -/
structure cl_float where
  bits : Fin 4294967296
deriving DecidableEq, Repr, Inhabited

/-- Modelled from the spec: `float3.h` is missing from the sources; the
specification describes the type as a 3-component floating-point vector. -/
structure float3 where
  x : cl_float
  y : cl_float
  z : cl_float
deriving DecidableEq, Repr, Inhabited

/-! ## Records -/

/-- The `class Sphere`, members in declaration order (Sphere.h lines 9-14). -/
structure Sphere where
  pos : float3
  ori : float3
  r : cl_float
  mati : cl_uint
  texi : cl_uint
  reserved : cl_uint
deriving DecidableEq, Repr, Inhabited

/-- The `class TextureInfo`, members in declaration order (TextureInfo.h lines 7-10). -/
structure TextureInfo where
  width : cl_float
  height : cl_float
  index : cl_uint
  flag : cl_uint
deriving DecidableEq, Repr, Inhabited

/-- Names of the data members of `Sphere`. -/
inductive Field where
  | pos | ori | r | mati | texi | reserved
deriving DecidableEq, Repr

/-- Names of the data members of `TextureInfo`. -/
inductive TexField where
  | width | height | index | flag
deriving DecidableEq, Repr

/-- Type of the value held by a member of `Sphere`. -/
@[reducible] def Field.ty : Field → Type
  | .pos => float3
  | .ori => float3
  | .r => cl_float
  | .mati => cl_uint
  | .texi => cl_uint
  | .reserved => cl_uint

/-- Type of the value held by a member of `TextureInfo`. -/
@[reducible] def TexField.ty : TexField → Type
  | .width => cl_float
  | .height => cl_float
  | .index => cl_uint
  | .flag => cl_uint

/-- Member read `s.f`. -/
def Sphere.get (s : Sphere) : (f : Field) → f.ty
  | .pos => s.pos
  | .ori => s.ori
  | .r => s.r
  | .mati => s.mati
  | .texi => s.texi
  | .reserved => s.reserved

/-- Member write `s.f = v`. -/
def Sphere.set (s : Sphere) : (f : Field) → f.ty → Sphere
  | .pos, v => { s with pos := v }
  | .ori, v => { s with ori := v }
  | .r, v => { s with r := v }
  | .mati, v => { s with mati := v }
  | .texi, v => { s with texi := v }
  | .reserved, v => { s with reserved := v }

/-- Member write `t.f = v`. -/
def TextureInfo.set (t : TextureInfo) : (f : TexField) → f.ty → TextureInfo
  | .width, v => { t with width := v }
  | .height, v => { t with height := v }
  | .index, v => { t with index := v }
  | .flag, v => { t with flag := v }

/-! ## Program state -/

/-- Pointer to a member of a `Sphere` object: `&this->field` for the object at
address `obj`. -/
structure Ptr where
  obj : Nat
  field : Field
deriving DecidableEq, Repr

/-- One executed statement. -/
inductive Event where
  | assign (this : Nat) (f : Field)
  | assignTex (this : Nat) (f : TexField)
  | attach (key : String) (p : Ptr)
  | incr
deriving DecidableEq, Repr

/-- Process state seen by the two headers. -/
structure World where
  /-- Variable `static unsigned int id` of `Sphere::console_add`. -/
  id : Nat
  /-- Memory holding `Sphere` objects, by address. -/
  spheres : Nat → Sphere
  /-- Memory holding `TextureInfo` objects, by address. -/
  textures : Nat → TextureInfo
  /-- Calls received by `GLConsole::cvars.attach_cvar`, oldest first. -/
  cvars : List (String × Ptr)
  /-- Statements executed so far, oldest first. -/
  trace : List Event

/-- State of a process in which no constructor has run yet: the static counter
has its initialiser `0`, the registry has received nothing; the contents of
memory are arbitrary. -/
def World.fresh (spheres : Nat → Sphere) (textures : Nat → TextureInfo) : World :=
  { id := 0, spheres := spheres, textures := textures, cvars := [], trace := [] }

/-- Statement `this->f = v` inside a `Sphere` member function. -/
def Sphere.assign (w : World) (this : Nat) (f : Field) (v : f.ty) : World :=
  { w with
    spheres := Function.update w.spheres this ((w.spheres this).set f v)
    trace := w.trace ++ [Event.assign this f] }

/-- Statement `this->f = v` inside a `TextureInfo` member function. -/
def TextureInfo.assign (w : World) (this : Nat) (f : TexField) (v : f.ty) : World :=
  { w with
    textures := Function.update w.textures this ((w.textures this).set f v)
    trace := w.trace ++ [Event.assignTex this f] }

/-- Modelled from the spec: `GLConsole.h` is missing from the sources; the
specification gives the registry the single operation
`attach(path, reference-to-field) -> void`, which registers a binding between
the key and the storage location of the field. -/
def attach_cvar (w : World) (key : String) (p : Ptr) : World :=
  { w with
    cvars := w.cvars ++ [(key, p)]
    trace := w.trace ++ [Event.attach key p] }

/-- The call `std::to_string(id)` on an `unsigned int`: decimal rendering. -/
def to_string (n : Nat) : String := Nat.repr n

/-- The constructor `TextureInfo::TextureInfo` (TextureInfo.h lines 15-20): four
assignments to the members of `this`, in source order. -/
def TextureInfo.TextureInfo (w : World) (this : Nat)
    (width height : cl_float) (index flag : cl_uint) : World :=
  let w := TextureInfo.assign w this .width width
  let w := TextureInfo.assign w this .height height
  let w := TextureInfo.assign w this .index index
  let w := TextureInfo.assign w this .flag flag
  w

/-- The member function `Sphere::console_add` (Sphere.h lines 29-37): five calls of
`attach_cvar`, each with a key built from the static counter and the address of
a member of `this`, then `id++` on the 32-bit counter. -/
def Sphere.console_add (w : World) (this : Nat) : World :=
  let w := attach_cvar w ("app.objects.spheres[" ++ to_string w.id ++ "].pos") ⟨this, .pos⟩
  let w := attach_cvar w ("app.objects.spheres[" ++ to_string w.id ++ "].ori") ⟨this, .ori⟩
  let w := attach_cvar w ("app.objects.spheres[" ++ to_string w.id ++ "].r") ⟨this, .r⟩
  let w := attach_cvar w ("app.objects.spheres[" ++ to_string w.id ++ "].mati") ⟨this, .mati⟩
  let w := attach_cvar w ("app.objects.spheres[" ++ to_string w.id ++ "].texi") ⟨this, .texi⟩
  { w with id := (w.id + 1) % 4294967296, trace := w.trace ++ [Event.incr] }

/-- The constructor `Sphere::Sphere` (Sphere.h lines 20-27): five assignments,
then `console_add`.  The declaration on line 17 gives `texi` the default
argument `0`; `reserved` is not assigned and keeps what memory held. -/
def Sphere.Sphere (w : World) (this : Nat)
    (pos ori : float3) (r : cl_float) (mati : cl_uint) (texi : cl_uint := 0) : World :=
  let w := Sphere.assign w this .pos pos
  let w := Sphere.assign w this .ori ori
  let w := Sphere.assign w this .r r
  let w := Sphere.assign w this .mati mati
  let w := Sphere.assign w this .texi texi
  Sphere.console_add w this

/-! ## Constructor calls and runs -/

/-- Arguments of one call `Sphere(pos, ori, r, mati, texi)` building the object
at address `this`. -/
structure SphereCall where
  this : Nat
  pos : float3
  ori : float3
  r : cl_float
  mati : cl_uint
  texi : cl_uint
deriving DecidableEq, Repr

/-- Arguments of one call `TextureInfo(width, height, index, flag)` building the
object at address `this`. -/
structure TextureCall where
  this : Nat
  width : cl_float
  height : cl_float
  index : cl_uint
  flag : cl_uint
deriving DecidableEq, Repr

/-- One constructor call of the scene-construction step. -/
inductive Ctor where
  | sphere (c : SphereCall)
  | texture (c : TextureCall)
deriving DecidableEq, Repr

/-- Whether the call constructs a `Sphere`. -/
def Ctor.isSphere : Ctor → Bool
  | .sphere _ => true
  | .texture _ => false

/-- State after one constructor call. -/
def World.exec (w : World) : Ctor → World
  | .sphere c => Sphere.Sphere w c.this c.pos c.ori c.r c.mati c.texi
  | .texture c => TextureInfo.TextureInfo w c.this c.width c.height c.index c.flag

/-- State after a sequence of constructor calls, executed in order. -/
def World.run (w : World) (cs : List Ctor) : World :=
  cs.foldl World.exec w

/-- Result of evaluating a constructor call: `some` of the state in which the
constructor body has run to its end, `none` when the call is refused.  Neither
constructor body contains a `throw`, a `return` or a condition, so there is no
refusing branch. -/
def World.eval (w : World) (c : Ctor) : Option World :=
  some (w.exec c)

/-- Keys of the calls the registry has received, oldest first. -/
def World.keys (w : World) : List String :=
  w.cvars.map Prod.fst

/-! ## Registry keys, as the specification writes them -/

/-- The members `console_add` registers, in the order of its calls. -/
def Sphere.registered : List Field :=
  [.pos, .ori, .r, .mati, .texi]

/-- Spelling of a member name. -/
def Field.name : Field → String
  | .pos => "pos"
  | .ori => "ori"
  | .r => "r"
  | .mati => "mati"
  | .texi => "texi"
  | .reserved => "reserved"

/-- The path `app.objects.spheres[<n>].<field>` with `n` in decimal. -/
def cvarKey (n : Nat) (f : Field) : String :=
  "app.objects.spheres[" ++ to_string n ++ "]." ++ f.name

/-- The five bindings announced for the sphere at `this` under index `n`. -/
def bindingsOf (n this : Nat) : List (String × Ptr) :=
  Sphere.registered.map fun f => (cvarKey n f, Ptr.mk this f)

/-- The keys `app.objects.spheres[k].{pos,ori,r,mati,texi}` for `k = 0 .. N-1`,
ordered by `k` and then by member. -/
def expectedKeys (N : Nat) : List String :=
  (List.range N).flatMap fun k => Sphere.registered.map (cvarKey k)

/-- Reading one more decimal digit: the step of the left fold that recovers a
number from its rendering. -/
def decodeStep (a : Nat) (c : Char) : Nat :=
  10 * a + (c.toNat - 48)

/-- A sphere call used in examples: unit radius (bit pattern of `1.0f`) at the
origin, built at address 0, material 0, texture 0. -/
def unitSphereCall : SphereCall :=
  { this := 0, pos := ⟨⟨0⟩, ⟨0⟩, ⟨0⟩⟩, ori := ⟨⟨0⟩, ⟨0⟩, ⟨0⟩⟩, r := ⟨1065353216⟩,
    mati := 0, texi := 0 }

/-- A fresh process whose memory is filled with zeroes. -/
def World.zeroed : World :=
  World.fresh (fun _ => default) (fun _ => default)

/-- Modelled from the spec: the registry's access through a binding is
missing from the sources; the specification makes a binding a live reference to
the storage location of the member, so a read through it returns what the member
holds at that moment. -/
def Ptr.read (p : Ptr) (mem : Nat → Sphere) : p.field.ty :=
  (mem p.obj).get p.field

/-- Modelled from the spec: a write through a binding stores the value in the
member the binding refers to (see `Ptr.read`). -/
def Ptr.write (p : Ptr) (v : p.field.ty) (mem : Nat → Sphere) : Nat → Sphere :=
  Function.update mem p.obj ((mem p.obj).set p.field v)

/-- The owner's own write `sphere.f = v` to the object at address `this`. -/
def ownerWrite (this : Nat) (f : Field) (v : f.ty) (mem : Nat → Sphere) : Nat → Sphere :=
  Function.update mem this ((mem this).set f v)

/-- The calls the registry received between state `w` and the later state `w'`. -/
def World.attachedSince (w w' : World) : List (String × Ptr) :=
  w'.cvars.drop w.cvars.length

/-- The events executed between state `w` and the later state `w'`. -/
def World.eventsSince (w w' : World) : List Event :=
  w'.trace.drop w.trace.length

/-! ## Record layout -/

/-- The C types of the data members. -/
inductive CType where
  | float3 | cl_float | cl_uint
deriving DecidableEq, Repr

/-- Declared type of each member of `Sphere` (Sphere.h lines 9-14). -/
def Field.ctype : Field → CType
  | .pos => .float3
  | .ori => .float3
  | .r => .cl_float
  | .mati => .cl_uint
  | .texi => .cl_uint
  | .reserved => .cl_uint

/-- Modelled from the spec: width of a type in 32-bit words.  `cl_float` and
`cl_uint` are one word each; `float3.h` is missing from the sources and the
specification counts a 3-component vector, three words. -/
def CType.words : CType → Nat
  | .float3 => 3
  | .cl_float => 1
  | .cl_uint => 1

/-- The data members of `Sphere` in declaration order (Sphere.h lines 9-14). -/
def Sphere.members : List Field :=
  [.pos, .ori, .r, .mati, .texi, .reserved]

/-- Byte offsets of members laid out one after the other from byte `start`. -/
def offsetsFrom : Nat → List Field → List (Field × Nat)
  | _, [] => []
  | start, f :: fs => (f, start) :: offsetsFrom (start + 4 * f.ctype.words) fs

/-- Byte offset of every member of `Sphere`. -/
def Sphere.layout : List (Field × Nat) :=
  offsetsFrom 0 Sphere.members

/-- Words of a `float3`, in component order. -/
def float3.serialize (v : float3) : List (Fin 4294967296) :=
  [v.x.bits, v.y.bits, v.z.bits]

/-- Words of one member of a sphere. -/
def Sphere.serializeField (s : PathTracer.Sphere) : Field → List (Fin 4294967296)
  | .pos => s.pos.serialize
  | .ori => s.ori.serialize
  | .r => [s.r.bits]
  | .mati => [s.mati]
  | .texi => [s.texi]
  | .reserved => [s.reserved]

/-- Modelled from the spec: the buffer builder is missing from the sources; the
specification has the record uploaded unmodified, member after member in
declaration order. -/
def Sphere.serialize (s : PathTracer.Sphere) : List (Fin 4294967296) :=
  Sphere.members.flatMap s.serializeField

/-- A second sphere call used in examples: as `unitSphereCall`, built at
address 1. -/
def secondSphereCall : SphereCall :=
  { unitSphereCall with this := 1 }

/-- A run of `2 ^ 32 + 1` sphere constructions: `2 ^ 32` at address 0, then
one at address 1. -/
def wrapRun : List SphereCall :=
  List.replicate 4294967296 unitSphereCall ++ [secondSphereCall]

end PathTracer

namespace PathTracer

/-! ## Decimal rendering is injective -/

theorem digitChar_decode (k : Nat) (h : k < 10) : (Nat.digitChar k).toNat - 48 = k := by
  interval_cases k <;> rfl

theorem digitChar_ne_bracket (k : Nat) (h : k < 10) : Nat.digitChar k ≠ ']' := by
  interval_cases k <;> decide

theorem decode_toDigitsCore (fuel : Nat) :
    ∀ (n : Nat) (ds : List Char), n < fuel →
      (Nat.toDigitsCore 10 fuel n ds).foldl decodeStep 0 = ds.foldl decodeStep n := by
  induction fuel with
  | zero => intro n ds h; omega
  | succ fuel ih =>
    intro n ds h
    have hd : (Nat.digitChar (n % 10)).toNat - 48 = n % 10 :=
      digitChar_decode _ (Nat.mod_lt _ (by decide))
    by_cases h0 : n / 10 = 0
    · have hn : n % 10 = n := by omega
      rw [hn] at hd
      simp [Nat.toDigitsCore, h0, decodeStep, hd, hn]
    · have hlt : n / 10 < fuel := by omega
      simp only [Nat.toDigitsCore, h0, if_false]
      rw [ih (n / 10) _ hlt]
      have hn : 10 * (n / 10) + n % 10 = n := Nat.div_add_mod n 10
      simp [decodeStep, hd, hn]

theorem bracket_not_mem_toDigitsCore (fuel : Nat) :
    ∀ (n : Nat) (ds : List Char), ']' ∉ ds → ']' ∉ Nat.toDigitsCore 10 fuel n ds := by
  induction fuel with
  | zero => intro n ds h; simpa [Nat.toDigitsCore] using h
  | succ fuel ih =>
    intro n ds h
    have hd : ']' ≠ Nat.digitChar (n % 10) :=
      (digitChar_ne_bracket _ (Nat.mod_lt _ (by decide))).symm
    have h2 : ']' ∉ Nat.digitChar (n % 10) :: ds := by
      simp [hd, h]
    by_cases h0 : n / 10 = 0
    · simpa [Nat.toDigitsCore, h0] using h2
    · simp only [Nat.toDigitsCore, h0, if_false]
      exact ih _ _ h2

theorem decode_to_string (n : Nat) : (to_string n).data.foldl decodeStep 0 = n := by
  have := decode_toDigitsCore (n + 1) n [] (Nat.lt_succ_self n)
  simpa [to_string, Nat.repr, Nat.toDigits, List.asString] using this

theorem to_string_injective {i j : Nat} (h : to_string i = to_string j) : i = j := by
  have hi := decode_to_string i
  rw [h, decode_to_string j] at hi
  exact hi.symm

theorem bracket_not_mem_to_string (n : Nat) : ']' ∉ (to_string n).data := by
  have := bracket_not_mem_toDigitsCore (n + 1) n [] (by simp)
  simpa [to_string, Nat.repr, Nat.toDigits, List.asString] using this

/-! ## Keys -/

theorem split_at_mark {c : Char} :
    ∀ (l₁ l₂ r₁ r₂ : List Char), c ∉ l₁ → c ∉ l₂ →
      l₁ ++ c :: r₁ = l₂ ++ c :: r₂ → l₁ = l₂ ∧ r₁ = r₂ := by
  intro l₁
  induction l₁ with
  | nil =>
    intro l₂ r₁ r₂ _ h₂ h
    cases l₂ with
    | nil => simpa using h
    | cons a t =>
      simp only [List.nil_append, List.cons_append, List.cons.injEq] at h
      exact absurd (by simp [h.1]) h₂
  | cons a t ih =>
    intro l₂ r₁ r₂ h₁ h₂ h
    cases l₂ with
    | nil =>
      simp only [List.nil_append, List.cons_append, List.cons.injEq] at h
      exact absurd (by simp [h.1]) h₁
    | cons b u =>
      simp only [List.cons_append, List.cons.injEq] at h
      have ht : c ∉ t := fun hc => h₁ (List.mem_cons_of_mem _ hc)
      have hu : c ∉ u := fun hc => h₂ (List.mem_cons_of_mem _ hc)
      obtain ⟨e₁, e₂⟩ := ih u r₁ r₂ ht hu h.2
      exact ⟨by rw [h.1, e₁], e₂⟩

theorem Field.name_injective {f g : Field} (h : f.name.data = g.name.data) : f = g := by
  cases f <;> cases g <;> first | rfl | (exact absurd h (by decide))

theorem cvarKey_data (n : Nat) (f : Field) :
    (cvarKey n f).data =
      "app.objects.spheres[".data ++ ((to_string n).data ++ ']' :: '.' :: f.name.data) := by
  simp only [cvarKey, String.data_append, List.append_assoc]
  rfl

theorem cvarKey_injective {i j : Nat} {f g : Field} (h : cvarKey i f = cvarKey j g) :
    i = j ∧ f = g := by
  have hd := congrArg String.data h
  rw [cvarKey_data, cvarKey_data] at hd
  have hd := List.append_cancel_left hd
  obtain ⟨e₁, e₂⟩ := split_at_mark _ _ _ _ (bracket_not_mem_to_string i)
    (bracket_not_mem_to_string j) hd
  refine ⟨to_string_injective (String.ext e₁), Field.name_injective ?_⟩
  simpa using e₂

/-! ## One construction -/

theorem key_spelling (n : Nat) (f : Field) :
    cvarKey n f = "app.objects.spheres[" ++ to_string n ++ ("]." ++ f.name) := by
  simp only [cvarKey, String.append_assoc]

theorem console_add_cvars (w : World) (this : Nat) :
    (Sphere.console_add w this).cvars = w.cvars ++ bindingsOf w.id this := by
  simp only [Sphere.console_add, attach_cvar, bindingsOf, Sphere.registered, List.map,
    key_spelling, List.append_assoc, List.singleton_append]
  rfl

theorem console_add_id (w : World) (this : Nat) :
    (Sphere.console_add w this).id = (w.id + 1) % 4294967296 := rfl

theorem console_add_trace (w : World) (this : Nat) :
    (Sphere.console_add w this).trace =
      w.trace ++ ((bindingsOf w.id this).map fun b => Event.attach b.1 b.2) ++ [Event.incr] := by
  simp only [Sphere.console_add, attach_cvar, bindingsOf, Sphere.registered, List.map,
    key_spelling, List.append_assoc, List.singleton_append, List.cons_append, List.nil_append]
  rfl

theorem Sphere_cvars (w : World) (c : SphereCall) :
    (w.exec (.sphere c)).cvars = w.cvars ++ bindingsOf w.id c.this := by
  simp only [World.exec, Sphere.Sphere, console_add_cvars]
  rfl

theorem Sphere_id (w : World) (c : SphereCall) :
    (w.exec (.sphere c)).id = (w.id + 1) % 4294967296 := rfl

theorem Texture_cvars (w : World) (c : TextureCall) :
    (w.exec (.texture c)).cvars = w.cvars := rfl

theorem Texture_id (w : World) (c : TextureCall) :
    (w.exec (.texture c)).id = w.id := rfl

/-! ## Runs of constructions -/

theorem run_nil (w : World) : w.run [] = w := rfl

theorem run_cons (w : World) (c : Ctor) (cs : List Ctor) :
    w.run (c :: cs) = (w.exec c).run cs := rfl

/-- The counter after a run of sphere constructions, when it stood at `s`
modulo `2 ^ 32` before. -/
theorem run_spheres_id (cs : List SphereCall) :
    ∀ (s : Nat) (w : World), w.id = s % 4294967296 →
      (w.run (cs.map Ctor.sphere)).id = (s + cs.length) % 4294967296 := by
  induction cs with
  | nil => intro s w h; simpa [run_nil] using h
  | cons c cs ih =>
    intro s w h
    rw [List.map_cons, run_cons, ih (s + 1) (w.exec (.sphere c))]
    · rw [List.length_cons]; congr 1; omega
    · rw [Sphere_id, h]; omega

/-- The calls the registry has received after a run of sphere constructions:
the call number `k` of the run is made with the counter value `(s + k) mod 2 ^ 32`. -/
theorem run_spheres_cvars (cs : List SphereCall) :
    ∀ (s : Nat) (w : World), w.id = s % 4294967296 →
      (w.run (cs.map Ctor.sphere)).cvars =
        w.cvars ++ (cs.enumFrom s).flatMap
          fun p => bindingsOf (p.1 % 4294967296) p.2.this := by
  induction cs with
  | nil => intro s w _; simp [run_nil]
  | cons c cs ih =>
    intro s w h
    rw [List.map_cons, run_cons, ih (s + 1) (w.exec (.sphere c))]
    · rw [Sphere_cvars, List.enumFrom_cons, List.flatMap_cons, List.append_assoc, h]
    · rw [Sphere_id, h]; omega

theorem bindingsOf_keys (n this : Nat) :
    (bindingsOf n this).map Prod.fst = Sphere.registered.map (cvarKey n) := by
  simp [bindingsOf]

theorem bindingsOf_length (n this : Nat) : (bindingsOf n this).length = 5 := rfl

theorem flatMap_length_const {α β : Type} (f : α → List β) (m : Nat) :
    ∀ l : List α, (∀ x ∈ l, (f x).length = m) → (l.flatMap f).length = m * l.length := by
  intro l
  induction l with
  | nil => intro _; simp
  | cons a t ih =>
    intro h
    rw [List.flatMap_cons, List.length_append, h a (List.mem_cons_self _ _),
      ih (fun x hx => h x (List.mem_cons_of_mem _ hx)), List.length_cons]
    ring

theorem enumFrom_fst_lt {α : Type} (l : List α) :
    ∀ (s : Nat) (p : Nat × α), p ∈ l.enumFrom s → p.1 < s + l.length := by
  induction l with
  | nil => intro s p h; simp at h
  | cons a t ih =>
    intro s p h
    rw [List.enumFrom_cons, List.mem_cons] at h
    rcases h with h | h
    · subst h; simp
    · have := ih (s + 1) p h
      rw [List.length_cons]; omega

theorem expectedKeys_nodup (N : Nat) : (expectedKeys N).Nodup := by
  unfold expectedKeys
  rw [List.nodup_flatMap]
  refine ⟨fun k _ => ?_, ?_⟩
  · refine List.Nodup.map (fun f g h => (cvarKey_injective h).2) ?_
    decide
  · refine List.Pairwise.imp ?_ (List.nodup_range N)
    intro a b hab
    show List.Disjoint _ _
    intro key ha hb
    rw [List.mem_map] at ha hb
    obtain ⟨f, _, hf⟩ := ha
    obtain ⟨g, _, hg⟩ := hb
    exact hab (cvarKey_injective (hf.trans hg.symm)).1

/-! ## C1: registration of `N` spheres -/

theorem run_spheres_fresh_cvars (spheres : Nat → Sphere) (textures : Nat → TextureInfo)
    (cs : List SphereCall) :
    ((World.fresh spheres textures).run (cs.map Ctor.sphere)).cvars =
      cs.enum.flatMap fun p => bindingsOf (p.1 % 4294967296) p.2.this := by
  have h := run_spheres_cvars cs 0 (World.fresh spheres textures) rfl
  simpa [World.fresh, List.enum] using h

theorem keys_of_enum (cs : List SphereCall) :
    (cs.enum.flatMap fun p => bindingsOf p.1 p.2.this).map Prod.fst =
      expectedKeys cs.length := by
  rw [List.map_flatMap, expectedKeys, ← List.enum_map_fst cs, List.flatMap_map]
  exact List.flatMap_congr fun p _ => bindingsOf_keys _ _

theorem expectedKeys_succ (N : Nat) :
    expectedKeys (N + 1) = expectedKeys N ++ Sphere.registered.map (cvarKey N) := by
  simp only [expectedKeys, List.range_succ, List.flatMap_append, List.flatMap_singleton]

/-- C1, as the claim states it, fails: in a fresh process, after `2 ^ 32 + 1`
sphere constructions the keys the registry has received are not
`app.objects.spheres[0 .. 2 ^ 32].{pos,ori,r,mati,texi}`; the last sphere is
announced under index `0` again. -/
theorem spheres_keys_wrap_counterexample :
    (World.zeroed.run ((List.replicate 4294967297 unitSphereCall).map Ctor.sphere)).keys
      ≠ expectedKeys 4294967297 := by
  intro h
  have hrep : List.replicate 4294967297 unitSphereCall =
      List.replicate 4294967296 unitSphereCall ++ [unitSphereCall] :=
    List.replicate_succ' 4294967296 unitSphereCall
  have hexp : expectedKeys 4294967297 =
      expectedKeys 4294967296 ++ Sphere.registered.map (cvarKey 4294967296) :=
    expectedKeys_succ 4294967296
  rw [World.keys, World.zeroed, run_spheres_fresh_cvars, hrep, List.enum_append,
    List.flatMap_append, List.map_append, hexp, List.length_replicate] at h
  have h2 := List.append_inj_right' h (by simp [bindingsOf_length, Sphere.registered])
  simp only [List.enumFrom_cons, List.enumFrom_nil, List.flatMap_singleton,
    bindingsOf_keys, Sphere.registered, List.map_cons, List.cons.injEq] at h2
  have h3 := (cvarKey_injective h2.1).1
  omega

/-- C1 (amended): for every `N ≤ 2 ^ 32` and every sequence of `N` sphere
constructions in a fresh process, the registry receives exactly `5 N` attach
calls; the construction number `k` starts with the counter at `k` and its five
bindings carry index `k`; the keys are
`app.objects.spheres[k].{pos,ori,r,mati,texi}` for `k = 0 .. N-1`, in that
order, and no key occurs twice; the construction arguments play no role. -/
theorem spheres_registered_in_order (spheres : Nat → Sphere) (textures : Nat → TextureInfo)
    (cs : List SphereCall) (hN : cs.length ≤ 4294967296) :
    ((World.fresh spheres textures).run (cs.map Ctor.sphere)).cvars.length = 5 * cs.length ∧
    ((World.fresh spheres textures).run (cs.map Ctor.sphere)).cvars =
      (cs.enum.flatMap fun p => bindingsOf p.1 p.2.this) ∧
    ((World.fresh spheres textures).run (cs.map Ctor.sphere)).keys = expectedKeys cs.length ∧
    ((World.fresh spheres textures).run (cs.map Ctor.sphere)).keys.Nodup ∧
    ∀ k, k < cs.length →
      ((World.fresh spheres textures).run ((cs.take k).map Ctor.sphere)).id = k := by
  have hc : ((World.fresh spheres textures).run (cs.map Ctor.sphere)).cvars =
      (cs.enum.flatMap fun p => bindingsOf p.1 p.2.this) := by
    rw [run_spheres_fresh_cvars]
    refine List.flatMap_congr fun p hp => ?_
    have hlt := enumFrom_fst_lt cs 0 p hp
    rw [Nat.mod_eq_of_lt (by omega)]
  have hk : ((World.fresh spheres textures).run (cs.map Ctor.sphere)).keys =
      expectedKeys cs.length := by
    rw [World.keys, hc, keys_of_enum]
  refine ⟨?_, hc, hk, ?_, ?_⟩
  · rw [hc, flatMap_length_const _ 5 _ (fun p _ => bindingsOf_length _ _), List.enum_length]
  · rw [hk]; exact expectedKeys_nodup _
  · intro k hk
    rw [run_spheres_id (cs.take k) 0 (World.fresh spheres textures) rfl, List.length_take,
      Nat.min_eq_left (Nat.le_of_lt hk), Nat.zero_add]
    exact Nat.mod_eq_of_lt (by omega)

/-- Witness for C1 (amended): two spheres in a zero-filled fresh process. -/
theorem spheres_registered_in_order_witness :
    (World.zeroed.run ([unitSphereCall, { unitSphereCall with this := 1 }].map
      Ctor.sphere)).keys =
      ["app.objects.spheres[0].pos", "app.objects.spheres[0].ori", "app.objects.spheres[0].r",
        "app.objects.spheres[0].mati", "app.objects.spheres[0].texi",
        "app.objects.spheres[1].pos", "app.objects.spheres[1].ori", "app.objects.spheres[1].r",
        "app.objects.spheres[1].mati", "app.objects.spheres[1].texi"] :=
  (spheres_registered_in_order (fun _ => default) (fun _ => default)
    [unitSphereCall, { unitSphereCall with this := 1 }] (by decide)).2.2.1.trans (by decide)

/-! ## C2: one construction -/

/-- C2, as the claim states it, fails: the `2 ^ 32`-th construction of a process
starts with the counter at `4294967295` and leaves it at `0`, not at
`4294967296`. -/
theorem counter_wrap_counterexample :
    (World.zeroed.run ((List.replicate 4294967295 unitSphereCall).map Ctor.sphere)).id
        = 4294967295 ∧
      ((World.zeroed.run ((List.replicate 4294967295 unitSphereCall).map Ctor.sphere)).exec
        (Ctor.sphere unitSphereCall)).id = 0 := by
  have h : (World.zeroed.run ((List.replicate 4294967295 unitSphereCall).map Ctor.sphere)).id
      = 4294967295 := by
    rw [run_spheres_id _ 0 World.zeroed rfl, List.length_replicate]
  refine ⟨h, ?_⟩
  rw [Sphere_id, h]

/-- C2 (amended): a single sphere construction performed when the counter holds
`n` first assigns the five members and only then issues exactly five attach
calls, in the order pos, ori, r, mati, texi, all under index `n`, each with the
address of the member it names; it increments the counter once, after the fifth
attach, to `(n + 1) mod 2 ^ 32`, which is `n + 1` whenever `n + 1 < 2 ^ 32`. -/
theorem Sphere_construction_steps (w : World) (this : Nat) (pos ori : float3) (r : cl_float)
    (mati texi : cl_uint) :
    World.eventsSince w (Sphere.Sphere w this pos ori r mati texi) =
      [Event.assign this .pos, Event.assign this .ori, Event.assign this .r,
        Event.assign this .mati, Event.assign this .texi,
        Event.attach (cvarKey w.id .pos) ⟨this, .pos⟩,
        Event.attach (cvarKey w.id .ori) ⟨this, .ori⟩,
        Event.attach (cvarKey w.id .r) ⟨this, .r⟩,
        Event.attach (cvarKey w.id .mati) ⟨this, .mati⟩,
        Event.attach (cvarKey w.id .texi) ⟨this, .texi⟩,
        Event.incr] ∧
    World.attachedSince w (Sphere.Sphere w this pos ori r mati texi) =
      [(cvarKey w.id .pos, ⟨this, .pos⟩), (cvarKey w.id .ori, ⟨this, .ori⟩),
        (cvarKey w.id .r, ⟨this, .r⟩), (cvarKey w.id .mati, ⟨this, .mati⟩),
        (cvarKey w.id .texi, ⟨this, .texi⟩)] ∧
    (Sphere.Sphere w this pos ori r mati texi).id = (w.id + 1) % 4294967296 ∧
    (w.id + 1 < 4294967296 → (Sphere.Sphere w this pos ori r mati texi).id = w.id + 1) := by
  have hid : (Sphere.Sphere w this pos ori r mati texi).id = (w.id + 1) % 4294967296 := rfl
  refine ⟨?_, ?_, hid, fun h => by rw [hid, Nat.mod_eq_of_lt h]⟩
  · simp only [World.eventsSince, Sphere.Sphere, console_add_trace]
    simp [Sphere.assign, bindingsOf, Sphere.registered]
  · simp only [World.attachedSince, Sphere.Sphere, console_add_cvars]
    simp [Sphere.assign, bindingsOf, Sphere.registered]

/-- Witness for C2 (amended): the first construction of a process, counter `0`. -/
theorem Sphere_construction_steps_witness :
    (0 : Nat) + 1 < 4294967296 ∧
      (Sphere.Sphere World.zeroed 0 ⟨⟨0⟩, ⟨0⟩, ⟨0⟩⟩ ⟨⟨0⟩, ⟨0⟩, ⟨0⟩⟩ ⟨1065353216⟩ 0 0).id = 0 + 1 :=
  ⟨by decide,
    (Sphere_construction_steps World.zeroed 0 ⟨⟨0⟩, ⟨0⟩, ⟨0⟩⟩ ⟨⟨0⟩, ⟨0⟩, ⟨0⟩⟩ ⟨1065353216⟩
      0 0).2.2.2 (by decide)⟩

/-! ## C3: bindings are references -/

theorem Sphere_get_set_same (s : Sphere) (f : Field) (v : f.ty) : (s.set f v).get f = v := by
  cases f <;> rfl

theorem Sphere_get_set_other (s : Sphere) (f g : Field) (v : f.ty) (h : g ≠ f) :
    (s.set f v).get g = s.get g := by
  cases f <;> cases g <;> first | rfl | exact absurd rfl h

theorem attachedSince_Sphere (w : World) (c : SphereCall) :
    World.attachedSince w (w.exec (.sphere c)) = bindingsOf w.id c.this := by
  rw [World.attachedSince, Sphere_cvars, List.drop_left]

/-- C3: for the sphere built by any construction and each registered member
`f`: the construction registers, under the sphere's key for `f`, the pointer to
member `f` of that object and nothing else; a write of `v` through that pointer
followed by a read of the sphere's member `f` yields `v`, leaves every other
member of the sphere (also `reserved`) and every other sphere as they were; and
after the owner writes `v` to the member, a read through the pointer yields `v`. -/
theorem binding_is_reference (w : World) (c : SphereCall) (f : Field)
    (hf : f ∈ Sphere.registered) :
    (∀ p : Ptr, (cvarKey w.id f, p) ∈ World.attachedSince w (w.exec (.sphere c)) ↔
      p = ⟨c.this, f⟩) ∧
    (∀ (mem : Nat → Sphere) (v : f.ty),
      ((Ptr.write ⟨c.this, f⟩ v mem) c.this).get f = v) ∧
    (∀ (mem : Nat → Sphere) (v : f.ty) (g : Field), g ≠ f →
      ((Ptr.write ⟨c.this, f⟩ v mem) c.this).get g = (mem c.this).get g) ∧
    (∀ (mem : Nat → Sphere) (v : f.ty) (a : Nat), a ≠ c.this →
      (Ptr.write ⟨c.this, f⟩ v mem) a = mem a) ∧
    (∀ (mem : Nat → Sphere) (v : f.ty),
      Ptr.read ⟨c.this, f⟩ (ownerWrite c.this f v mem) = v) := by
  refine ⟨fun p => ?_, fun mem v => ?_, fun mem v g hg => ?_, fun mem v a ha => ?_,
    fun mem v => ?_⟩
  · rw [attachedSince_Sphere, bindingsOf, List.mem_map]
    constructor
    · rintro ⟨g, _, hg⟩
      have hk := (Prod.mk.inj hg).1
      have hp := (Prod.mk.inj hg).2
      rw [← hp, (cvarKey_injective hk).2]
    · intro hp
      exact ⟨f, hf, by rw [hp]⟩
  · simp [Ptr.write, Sphere_get_set_same]
  · simp [Ptr.write, Sphere_get_set_other _ _ _ _ hg]
  · simp [Ptr.write, Function.update_noteq ha]
  · simp [Ptr.read, ownerWrite, Sphere_get_set_same]

/-- Witness for C3: the radius binding of a sphere built at address 0 in a
zero-filled fresh process; writing the bit pattern of `2.0f` through it. -/
theorem binding_is_reference_witness :
    Field.r ∈ Sphere.registered ∧
      ((Ptr.write ⟨0, Field.r⟩ (⟨1073741824⟩ : cl_float)
        (World.zeroed.exec (.sphere unitSphereCall)).spheres) 0).r = ⟨1073741824⟩ :=
  ⟨by decide,
    (binding_is_reference World.zeroed unitSphereCall Field.r (by decide)).2.1
      (World.zeroed.exec (.sphere unitSphereCall)).spheres ⟨1073741824⟩⟩

/-! ## C4, C5: arguments of the sphere constructor -/

/-- C4: for every pos, ori, r and mati, the sphere built by a constructor call
that omits the texture index has `texi == 0`. -/
theorem Sphere_texi_default (w : World) (this : Nat) (pos ori : float3) (r : cl_float)
    (mati : cl_uint) :
    ((Sphere.Sphere w this pos ori r mati).spheres this).texi = 0 := by
  simp [Sphere.Sphere, Sphere.console_add, attach_cvar, Sphere.assign, Sphere.set]

/-- C5: sphere construction validates nothing and never refuses: for every pos,
ori, r, mati and texi (every bit pattern of the radius, so also zero and
negative radii, and every 32-bit index) the call yields a state, and in it the
sphere at `this` holds exactly the five arguments. -/
theorem Sphere_accepts_all (w : World) (c : SphereCall) :
    ∃ w', w.eval (.sphere c) = some w' ∧
      (w'.spheres c.this).pos = c.pos ∧ (w'.spheres c.this).ori = c.ori ∧
      (w'.spheres c.this).r = c.r ∧ (w'.spheres c.this).mati = c.mati ∧
      (w'.spheres c.this).texi = c.texi := by
  refine ⟨_, rfl, ?_⟩
  simp [World.exec, Sphere.Sphere, Sphere.console_add, attach_cvar, Sphere.assign, Sphere.set]

/-! ## C6: layout of the sphere record -/

/-- C6: the sphere record has exactly the six members pos, ori, r, mati, texi,
reserved, in this order, 3, 3, 1, 1, 1, 1 words wide; serialized it is 10 words,
that is 40 bytes; the byte offsets are pos 0, ori 12, r 24, mati 28, texi 32,
reserved 36; every member ends where the next one starts and the last one
ends at byte 40 (no gap, no overlap); the words found at a member's offset are
that member. -/
theorem Sphere_layout (s : Sphere) :
    Sphere.members = [.pos, .ori, .r, .mati, .texi, .reserved] ∧
    Sphere.members.map (fun f => f.ctype.words) = [3, 3, 1, 1, 1, 1] ∧
    s.serialize.length = (Sphere.members.map fun f => f.ctype.words).sum ∧
    s.serialize.length = 10 ∧
    4 * s.serialize.length = 40 ∧
    Sphere.layout =
      [(.pos, 0), (.ori, 12), (.r, 24), (.mati, 28), (.texi, 32), (.reserved, 36)] ∧
    Sphere.layout.map (fun e => e.2 + 4 * e.1.ctype.words) =
      (Sphere.layout.map Prod.snd).tail ++ [4 * s.serialize.length] ∧
    Sphere.layout.map (fun e => (s.serialize.drop (e.2 / 4)).take e.1.ctype.words) =
      Sphere.members.map s.serializeField :=
  ⟨rfl, rfl, rfl, rfl, rfl, rfl, rfl, rfl⟩

/-! ## C7, C8: the texture descriptor -/

/-- C7, as the claim states it, fails: the constructor call with `flag = 3` is
not refused; it yields a `TextureInfo` whose flag is 3. -/
theorem TextureInfo_flag3_counterexample :
    ∃ w', World.zeroed.eval (.texture ⟨0, ⟨1132462080⟩, ⟨1132462080⟩, 0, 3⟩) = some w' ∧
      (w'.textures 0).flag = 3 :=
  ⟨_, rfl, rfl⟩

/-- C7 (amended): constructing a `TextureInfo` is never refused: every flag
value, also one outside {0, 1, 2}, yields a `TextureInfo`, and its flag is the
value given. -/
theorem TextureInfo_accepts_all (w : World) (c : TextureCall) :
    ∃ w', w.eval (.texture c) = some w' ∧ (w'.textures c.this).flag = c.flag := by
  refine ⟨_, rfl, ?_⟩
  simp [World.exec, TextureInfo.TextureInfo, TextureInfo.assign, TextureInfo.set]

/-- C8: for every width, height, index and flag the constructor stores the four
arguments as they are, each in the member of its name. -/
theorem TextureInfo_stores_arguments (w : World) (this : Nat) (width height : cl_float)
    (index flag : cl_uint) :
    (TextureInfo.TextureInfo w this width height index flag).textures this =
      { width := width, height := height, index := index, flag := flag } := by
  simp [TextureInfo.TextureInfo, TextureInfo.assign, TextureInfo.set]

/-! ## C9: keys do not collide -/

theorem wrapRun_cvars :
    (World.zeroed.run (wrapRun.map Ctor.sphere)).cvars =
      (bindingsOf 0 0 ++ ((List.replicate 4294967295 unitSphereCall).enumFrom 1).flatMap
        fun p => bindingsOf (p.1 % 4294967296) p.2.this) ++ bindingsOf 0 1 := by
  have hrep : List.replicate 4294967296 unitSphereCall =
      unitSphereCall :: List.replicate 4294967295 unitSphereCall :=
    List.replicate_succ unitSphereCall 4294967295
  rw [World.zeroed, run_spheres_fresh_cvars, wrapRun, List.enum_append, List.flatMap_append,
    List.length_replicate, hrep, List.enum_cons, List.flatMap_cons, List.enumFrom_cons,
    List.enumFrom_nil, List.flatMap_singleton]
  rfl

theorem wrapRun_front_length :
    (bindingsOf 0 0 ++ ((List.replicate 4294967295 unitSphereCall).enumFrom 1).flatMap
      fun p => bindingsOf (p.1 % 4294967296) p.2.this).length = 21474836480 := by
  rw [List.length_append, bindingsOf_length,
    flatMap_length_const _ 5 _ (fun p _ => bindingsOf_length _ _), List.enumFrom_length,
    List.length_replicate]

/-- C9, as the claim states it, fails: in a fresh process the first
construction (object at address 0) and the construction number `2 ^ 32 + 1`
(object at address 1) both register the key `app.objects.spheres[0].r`; the two
attach calls are number 2 and number 21474836482 of the registry's log, and
they bind different objects. -/
theorem keys_collide_after_wrap_counterexample :
    (World.zeroed.run (wrapRun.map Ctor.sphere)).cvars[2]? =
        some ("app.objects.spheres[0].r", ⟨0, .r⟩) ∧
      (World.zeroed.run (wrapRun.map Ctor.sphere)).cvars[21474836482]? =
        some ("app.objects.spheres[0].r", ⟨1, .r⟩) := by
  constructor
  · rw [wrapRun_cvars, List.append_assoc,
      List.getElem?_append_left (show 2 < (bindingsOf 0 0).length by decide)]
    decide
  · rw [wrapRun_cvars,
      List.getElem?_append_right (by rw [wrapRun_front_length]; decide),
      wrapRun_front_length]
    decide

theorem run_take_id (spheres : Nat → Sphere) (textures : Nat → TextureInfo)
    (cs : List SphereCall) (hN : cs.length ≤ 4294967296) (m : Nat) (hm : m < cs.length) :
    ((World.fresh spheres textures).run ((cs.take m).map Ctor.sphere)).id = m := by
  rw [run_spheres_id (cs.take m) 0 (World.fresh spheres textures) rfl, List.length_take,
    Nat.min_eq_left (Nat.le_of_lt hm), Nat.zero_add]
  exact Nat.mod_eq_of_lt (by omega)

/-- C9 (amended): for sphere indices `i`, `j` below `2 ^ 32` and registered
members `f`, `g`, the keys `app.objects.spheres[i].f` and
`app.objects.spheres[j].g` are equal only if `i = j` and `f = g`; so among the
first `2 ^ 32` constructions of a fresh process no two bindings collide on a
key: if construction number `m` and construction number `n` of a run of at
most `2 ^ 32` constructions register the same key, then `m = n` and the two
bindings are the same member of the same object, and the keys in the
registry's log are pairwise different. -/
theorem registry_keys_unique (i j : Nat) (hi : i < 4294967296) (hj : j < 4294967296)
    (f g : Field) (hf : f ∈ Sphere.registered) (hg : g ∈ Sphere.registered)
    (spheres : Nat → Sphere) (textures : Nat → TextureInfo) (cs : List SphereCall)
    (hN : cs.length ≤ 4294967296) (m n : Nat) (hm : m < cs.length) (hn : n < cs.length) :
    (cvarKey i f = cvarKey j g → i = j ∧ f = g) ∧
    (∀ (key : String) (p q : Ptr),
      (key, p) ∈ World.attachedSince
          ((World.fresh spheres textures).run ((cs.take m).map Ctor.sphere))
          (((World.fresh spheres textures).run ((cs.take m).map Ctor.sphere)).exec
            (.sphere cs[m])) →
      (key, q) ∈ World.attachedSince
          ((World.fresh spheres textures).run ((cs.take n).map Ctor.sphere))
          (((World.fresh spheres textures).run ((cs.take n).map Ctor.sphere)).exec
            (.sphere cs[n])) →
      m = n ∧ p = q) ∧
    ((World.fresh spheres textures).run (cs.map Ctor.sphere)).keys.Nodup := by
  have _ := hi
  have _ := hj
  have _ := hf
  have _ := hg
  refine ⟨cvarKey_injective, ?_, ?_⟩
  · intro key p q m₁ m₂
    rw [attachedSince_Sphere, run_take_id spheres textures cs hN m hm, bindingsOf,
      List.mem_map] at m₁
    rw [attachedSince_Sphere, run_take_id spheres textures cs hN n hn, bindingsOf,
      List.mem_map] at m₂
    obtain ⟨f', _, e₁⟩ := m₁
    obtain ⟨g', _, e₂⟩ := m₂
    have k := (Prod.mk.inj e₁).1.trans (Prod.mk.inj e₂).1.symm
    obtain ⟨hmn, hfg⟩ := cvarKey_injective k
    subst hmn
    subst hfg
    exact ⟨rfl, (Prod.mk.inj e₁).2.symm.trans (Prod.mk.inj e₂).2⟩
  · have hc : ((World.fresh spheres textures).run (cs.map Ctor.sphere)).cvars =
        (cs.enum.flatMap fun p => bindingsOf p.1 p.2.this) := by
      rw [run_spheres_fresh_cvars]
      refine List.flatMap_congr fun p hp => ?_
      have hlt := enumFrom_fst_lt cs 0 p hp
      rw [Nat.mod_eq_of_lt (by omega)]
    rw [World.keys, hc, keys_of_enum]
    exact expectedKeys_nodup _

/-- Witness for C9 (amended): two spheres at addresses 0 and 1 in a zero-filled
fresh process; the key of `r` of the first and the key of `pos` of the second
are registered once each, and the keys of `r` under the largest index and
under an index that is a decimal prefix of it differ. -/
theorem registry_keys_unique_witness :
    (4294967295 < 4294967296 ∧ 429496729 < 4294967296 ∧
        [unitSphereCall, secondSphereCall].length ≤ 4294967296) ∧
      cvarKey 4294967295 .r ≠ cvarKey 429496729 .r ∧
      (World.zeroed.run ([unitSphereCall, secondSphereCall].map Ctor.sphere)).keys.Nodup :=
  ⟨by decide,
    fun h => absurd ((registry_keys_unique 4294967295 429496729 (by decide) (by decide) .r .r
      (by decide) (by decide) (fun _ => default) (fun _ => default)
      [unitSphereCall, secondSphereCall] (by decide) 0 1 (by decide) (by decide)).1 h).1
      (by decide),
    (registry_keys_unique 4294967295 429496729 (by decide) (by decide) .r .r
      (by decide) (by decide) (fun _ => default) (fun _ => default)
      [unitSphereCall, secondSphereCall] (by decide) 0 1 (by decide) (by decide)).2.2⟩

/-! ## C10: texture descriptors are not registered -/

theorem run_congr (cs : List Ctor) :
    ∀ w₁ w₂ : World, w₁.id = w₂.id → w₁.cvars = w₂.cvars →
      (w₁.run cs).id = (w₂.run cs).id ∧ (w₁.run cs).cvars = (w₂.run cs).cvars := by
  induction cs with
  | nil => intro w₁ w₂ h₁ h₂; exact ⟨h₁, h₂⟩
  | cons c cs ih =>
    intro w₁ w₂ h₁ h₂
    rw [run_cons, run_cons]
    cases c with
    | sphere c =>
      refine ih _ _ ?_ ?_
      · rw [Sphere_id, Sphere_id, h₁]
      · rw [Sphere_cvars, Sphere_cvars, h₁, h₂]
    | texture c => exact ih _ _ h₁ h₂

theorem run_filter (cs : List Ctor) :
    ∀ w : World, (w.run cs).id = (w.run (cs.filter Ctor.isSphere)).id ∧
      (w.run cs).cvars = (w.run (cs.filter Ctor.isSphere)).cvars := by
  induction cs with
  | nil => intro w; exact ⟨rfl, rfl⟩
  | cons c cs ih =>
    intro w
    cases c with
    | sphere c =>
      rw [List.filter_cons_of_pos (by rfl), run_cons, run_cons]
      exact ih _
    | texture c =>
      rw [List.filter_cons_of_neg (by simp [Ctor.isSphere]), run_cons]
      have h := ih (w.exec (.texture c))
      have h' := run_congr (cs.filter Ctor.isSphere) (w.exec (.texture c)) w rfl rfl
      exact ⟨h.1.trans h'.1, h.2.trans h'.2⟩

/-- C10: constructing a `TextureInfo` issues no attach call and leaves the
sphere counter as it was; so for any sequence of sphere and texture
constructions, the calls the registry has received (keys and pointers) and the
counter are those of the same sequence with the texture constructions left
out. -/
theorem TextureInfo_not_registered (w : World) (c : TextureCall) (cs : List Ctor) :
    World.attachedSince w (w.exec (.texture c)) = [] ∧
    (∀ key p, Event.attach key p ∉ World.eventsSince w (w.exec (.texture c))) ∧
    (w.exec (.texture c)).cvars = w.cvars ∧
    (w.exec (.texture c)).id = w.id ∧
    (w.run cs).cvars = (w.run (cs.filter Ctor.isSphere)).cvars ∧
    (w.run cs).keys = (w.run (cs.filter Ctor.isSphere)).keys ∧
    (w.run cs).id = (w.run (cs.filter Ctor.isSphere)).id := by
  refine ⟨?_, ?_, rfl, rfl, (run_filter cs w).2, ?_, (run_filter cs w).1⟩
  · rw [World.attachedSince, Texture_cvars, List.drop_length]
  · intro key p
    simp [World.eventsSince, World.exec, TextureInfo.TextureInfo, TextureInfo.assign]
  · rw [World.keys, World.keys, (run_filter cs w).2]

end PathTracer
